import Mathlib

/-!
Shallow embedding of the Launtel residential-portal integration
(`custom_components/launtel`): the session manager, the three document
parsers, the plan-change executor (`api.py`) and the adaptive polling
coordinator (`__init__.py`), together with proofs of the stated
properties.  HTML documents are modelled at the level of the DOM queries
the source performs (each card / list item is a record of the attribute
and text values that BeautifulSoup would return); Python dicts are
modelled as insertion-ordered association lists; fallible code returns
`Option` / a result sum.
-/

/- ### String and number utilities mirroring the Python primitives -/

/-- Python `needle in hay` substring test. -/
def strContains (hay needle : String) : Bool :=
  go hay.data
where
  go : List Char → Bool
    | [] => needle.data.isEmpty
    | c :: t => needle.data.isPrefixOf (c :: t) || go t

/-- Digits-only string to `Nat`; `none` when empty or a non-digit occurs. -/
def digitsToNat (ds : List Char) : Option Nat :=
  if ds ≠ [] ∧ ds.all Char.isDigit then
    some (ds.foldl (fun a c => a * 10 + (c.toNat - 48)) 0)
  else none

/-- Python `str.strip()`: drop leading and trailing whitespace. -/
def trimChars (cs : List Char) : List Char :=
  ((cs.dropWhile Char.isWhitespace).reverse.dropWhile Char.isWhitespace).reverse

/-- String-level `str.strip()`. -/
def pyStrip (s : String) : String :=
  String.mk (trimChars s.data)

/-- Python `s.split("=")` (the only separator the source splits on). -/
def pySplitEq (s : String) : List String :=
  (s.data.splitOn '=').map String.mk

/-- Python `int(s)` for the plain decimal forms that occur in the portal's
attributes: optional surrounding whitespace, optional sign, digits.
(Underscore separators and non-ASCII digits accepted by CPython are not
modelled.) -/
def parseInt (s : String) : Option Int :=
  match (pyStrip s).data with
  | '+' :: ds => (digitsToNat ds).map Int.ofNat
  | '-' :: ds => (digitsToNat ds).map (fun n => -(n : Int))
  | ds => (digitsToNat ds).map Int.ofNat

/-- Python `float(s)` for plain decimal literals (optional sign, digits,
optional single point, e.g. `"2.5"`, `"112.65"`, `"5."`, `".5"`); exponent,
`inf` and `nan` forms are not modelled — the portal's attributes and the
balance regex only ever produce plain decimals. -/
def parseDecimal (s : String) : Option Rat :=
  let t := (pyStrip s).data
  let core : List Char → Option Rat := fun cs =>
    match cs.splitOn '.' with
    | [ip] =>
        (digitsToNat ip).map (fun n => (n : Rat))
    | [ip, fp] =>
        if ip = [] ∧ fp = [] then none
        else if (ip.all Char.isDigit) ∧ (fp.all Char.isDigit) then
          let ipn : Nat := ip.foldl (fun a c => a * 10 + (c.toNat - 48)) 0
          let fpn : Nat := fp.foldl (fun a c => a * 10 + (c.toNat - 48)) 0
          some ((ipn : Rat) + (fpn : Rat) / ((10 : Rat) ^ fp.length))
        else none
    | _ => none
  match t with
  | '+' :: cs => core cs
  | '-' :: cs => (core cs).map Neg.neg
  | cs => core cs

/-- Python `re.sub(r"\s+", " ", s)`: every maximal whitespace run becomes a
single space. -/
def collapseWs (s : String) : String :=
  String.mk
    ((s.data.foldl
      (fun (acc : List Char × Bool) c =>
        if c.isWhitespace then
          if acc.2 then acc else (acc.1 ++ [' '], true)
        else (acc.1 ++ [c], false))
      ([], false)).1)

/-- Python `" ".join(l)`. -/
def joinSp (l : List String) : String :=
  String.intercalate " " l

/- ### Python dict as an insertion-ordered association list -/

/-- Python `m[k] = v`: update in place when the key exists (keeping its
position), otherwise append. -/
def dinsert {α β : Type} [DecidableEq α] : List (α × β) → α → β → List (α × β)
  | [], k, v => [(k, v)]
  | p :: t, k, v => if p.1 = k then (k, v) :: t else p :: dinsert t k v

/-- Python `m.get(k)` / `m[k]` lookup. -/
def dget {α β : Type} [DecidableEq α] : List (α × β) → α → Option β
  | [], _ => none
  | p :: t, k => if p.1 = k then some p.2 else dget t k

/-- Keys are pairwise distinct — the invariant every Python dict enjoys. -/
def keysNodup {α β : Type} [DecidableEq α] (m : List (α × β)) : Prop :=
  (m.map Prod.fst).Nodup

theorem dget_dinsert_self {α β : Type} [DecidableEq α]
    (m : List (α × β)) (k : α) (v : β) :
    dget (dinsert m k v) k = some v := by
  induction m with
  | nil => simp [dinsert, dget]
  | cons p t ih =>
      by_cases h : p.1 = k
      · simp [dinsert, dget, h]
      · simp [dinsert, dget, h, ih]

theorem dget_dinsert_ne {α β : Type} [DecidableEq α]
    (m : List (α × β)) (k k' : α) (v : β) (h : k' ≠ k) :
    dget (dinsert m k v) k' = dget m k' := by
  induction m with
  | nil =>
      simp [dinsert, dget]
      exact fun hh => absurd hh.symm h
  | cons p t ih =>
      by_cases hp : p.1 = k
      · subst hp
        simp [dinsert, dget, h, Ne.symm h]
      · by_cases hp' : p.1 = k'
        · simp [dinsert, dget, hp, hp', h]
        · simp [dinsert, dget, hp, hp', ih]

theorem mem_dinsert {α β : Type} [DecidableEq α]
    (m : List (α × β)) (k : α) (v : β) (q : α × β)
    (h : q ∈ dinsert m k v) : q = (k, v) ∨ q ∈ m := by
  induction m with
  | nil => simpa [dinsert] using h
  | cons p t ih =>
      by_cases hp : p.1 = k
      · simp [dinsert, hp] at h
        rcases h with h | h
        · exact Or.inl h
        · exact Or.inr (List.mem_cons_of_mem _ h)
      · simp [dinsert, hp] at h
        rcases h with h | h
        · exact Or.inr (by simp [h])
        · rcases ih h with h' | h'
          · exact Or.inl h'
          · exact Or.inr (List.mem_cons_of_mem _ h')

theorem map_fst_dinsert {α β : Type} [DecidableEq α]
    (m : List (α × β)) (k : α) (v : β) :
    (dinsert m k v).map Prod.fst =
      if k ∈ m.map Prod.fst then m.map Prod.fst else m.map Prod.fst ++ [k] := by
  induction m with
  | nil => simp [dinsert]
  | cons p t ih =>
      by_cases hp : p.1 = k
      · simp [dinsert, hp]
      · simp only [dinsert, if_neg hp, List.map_cons, ih]
        have hk : ¬ k = p.1 := fun h => hp h.symm
        by_cases hm : k ∈ t.map Prod.fst
        · simp [hm, hk]
        · simp [hm, hk]

theorem keysNodup_dinsert {α β : Type} [DecidableEq α]
    (m : List (α × β)) (k : α) (v : β) (h : keysNodup m) :
    keysNodup (dinsert m k v) := by
  unfold keysNodup at h ⊢
  rw [map_fst_dinsert]
  by_cases hm : k ∈ m.map Prod.fst
  · simpa [hm] using h
  · simp only [hm, if_neg]
    simp [List.nodup_append, h, hm]

theorem dget_eq_of_mem {α β : Type} [DecidableEq α]
    (m : List (α × β)) (k : α) (v : β)
    (hnd : keysNodup m) (h : (k, v) ∈ m) : dget m k = some v := by
  induction m with
  | nil => simp at h
  | cons p t ih =>
      rcases List.mem_cons.mp h with h' | h'
      · rw [← h']
        simp [dget]
      · by_cases hp : p.1 = k
        · exfalso
          unfold keysNodup at hnd
          rw [List.map_cons, List.nodup_cons] at hnd
          refine hnd.1 ?_
          rw [hp]
          exact List.mem_map_of_mem Prod.fst h'
        · have hnd' : keysNodup t := by
            unfold keysNodup at hnd ⊢
            rw [List.map_cons, List.nodup_cons] at hnd
            exact hnd.2
          simp [dget, hp]
          exact ih hnd' h'

theorem mem_of_dget_eq_some {α β : Type} [DecidableEq α]
    (m : List (α × β)) (k : α) (v : β)
    (h : dget m k = some v) : (k, v) ∈ m := by
  induction m with
  | nil => simp [dget] at h
  | cons p t ih =>
      by_cases hp : p.1 = k
      · simp [dget, hp] at h
        exact List.mem_cons.mpr (Or.inl (by cases p; simp_all))
      · simp [dget, hp] at h
        exact List.mem_cons.mpr (Or.inr (ih h))

/- ### Error taxonomy

The spec's error names are mapped onto the code's raises: the
`RuntimeError("Authentication failed with Launtel")` in `async_login` is
`authenticationError`; `resp.raise_for_status()` (aiohttp raises
`ClientResponseError` exactly when `status >= 400`) on a page fetch is
`portalError`; `raise_for_status` inside the plan-change flow is
`planChangeError`. -/

inductive ApiError : Type
  | authenticationError
  | portalError (status : Nat)
  | planChangeError (status : Nat)
deriving DecidableEq

/-- Outcome of one portal operation: normal return, or a raised error. -/
inductive OpResult : Type
  | ok
  | error (e : ApiError)
deriving DecidableEq

/- ### Session Manager (`LauntelClient.async_login` / `_ensure_login`)

The aiohttp response to the login POST is abstracted to its status and
body text.  The session state carries the `_logged_in` flag together with
a counter of login requests actually issued (POSTs to `/login`), which is
what the idempotence property speaks about.  `async_login` models the
body of the `async with self._lock:` critical section; the lock
serializes concurrent callers, so a set of racing callers is modelled as
a sequence of `async_login` executions. -/

structure LoginResponse where
  status : Nat
  body : String
deriving DecidableEq

structure SessionState where
  logged_in : Bool
  loginRequests : Nat
deriving DecidableEq

/-- Session as constructed: unauthenticated, no login request issued yet. -/
def initSession : SessionState := ⟨false, 0⟩

/-- The `resp.status >= 400 or "name=\"username\"" in text` test of
`async_login`. -/
def loginRejected (r : LoginResponse) : Bool :=
  (400 ≤ r.status) || strContains r.body "name=\"username\""

/-- One execution of `async_login`'s locked body: return immediately when
already logged in; otherwise issue the login POST, then either raise
(leaving `_logged_in` untouched) or set `_logged_in = True`. -/
def async_login (st : SessionState) (r : LoginResponse) :
    SessionState × OpResult :=
  if st.logged_in then (st, OpResult.ok)
  else
    let st1 : SessionState := { st with loginRequests := st.loginRequests + 1 }
    if loginRejected r then (st1, OpResult.error ApiError.authenticationError)
    else ({ st1 with logged_in := true }, OpResult.ok)

/-- `_ensure_login`: the unlocked fast-path check, then `async_login`. -/
def ensure_login (st : SessionState) (r : LoginResponse) :
    SessionState × OpResult :=
  if st.logged_in then (st, OpResult.ok) else async_login st r

/-- Worst-case serialization of `n` concurrent callers by the login lock:
every caller passed the unlocked check before any login finished, so each
in turn executes `async_login`'s locked body. -/
def serializedLogins (r : LoginResponse) : Nat → SessionState → SessionState
  | 0, st => st
  | n + 1, st => serializedLogins r n (async_login st r).1

/- ### Plan-Change Executor (`LauntelClient.async_change_plan`)

Request construction (URLs, query strings, form fields) carries no
control flow, so only the two HTTP responses' statuses drive the model.
`raise_for_status` raises exactly when the status is `>= 400`.  The trace
records which of the two requests were issued and the outcome. -/

structure ChangePlanTrace where
  getIssued : Bool
  postIssued : Bool
  outcome : OpResult
deriving DecidableEq

/-- The two-step `confirm_service` flow: GET (with `raise_for_status`),
then POST (with `raise_for_status`). -/
def async_change_plan (getStatus postStatus : Nat) : ChangePlanTrace :=
  if 400 ≤ getStatus then
    ⟨true, false, OpResult.error (ApiError.planChangeError getStatus)⟩
  else if 400 ≤ postStatus then
    ⟨true, true, OpResult.error (ApiError.planChangeError postStatus)⟩
  else ⟨true, true, OpResult.ok⟩

/- ### Service Directory Parser (`LauntelClient.async_get_services`)

A service card is modelled by the values the source's DOM queries return
on it.  `titleText` is the text of the `span.service-title-txt` element
(`none` when the span is missing); `chartHref` is the `href` of the
parent of the `i.fa-bar-chart` icon (`none` when the icon, its parent or
the attribute is missing — an empty attribute value is falsy in the
source and is kept as `some ""`); `cardId` is `card.get("id", "")`;
`buttonOnclicks` lists the `onclick` attributes of the card's buttons in
document order; `speedDdTexts` is the `stripped_strings` of the `dd`
following the "Technology / Speed Tier" `dt` (`none` when `dt` or `dd` is
missing); `statusDdText` is the `get_text()` of the `dd` following the
"Status" `dt`. -/

structure ServiceCard where
  titleText : Option String
  chartHref : Option String
  cardId : String
  buttonOnclicks : List String
  speedDdTexts : Option (List String)
  statusDdText : Option String
deriving DecidableEq

/-- The normalized service record (`LauntelService` dataclass). -/
structure LauntelService where
  title : String
  service_id : Int
  avcid : String
  user_id : String
  speed_label : Option String := none
  change_in_progress : Bool := false
deriving DecidableEq

/-- The `re.search(r"(un)?pauseService\((\d+)", onclick)` extraction:
digits following the leftmost occurrence of `pauseService(` (an
`unpauseService(` occurrence contains that substring, so the optional
`un` group never changes the captured digits). -/
def serviceIdFromOnclick (onclick : String) : Option Nat :=
  go onclick.data
where
  tryHere (cs : List Char) : Option Nat :=
    if ("pauseService(".data).isPrefixOf cs then
      digitsToNat ((cs.drop 13).takeWhile Char.isDigit)
    else none
  go : List Char → Option Nat
    | [] => none
    | c :: t =>
        match tryHere (c :: t) with
        | some n => some n
        | none => go t

/-- Title after `.strip()`, empty when the title span is missing. -/
def servTitleOf (card : ServiceCard) : String :=
  pyStrip (card.titleText.getD "")

/-- The user id: third `=`-delimited segment of the chart link's `href`,
empty when the link or the segment is missing. -/
def servUserIdOf (card : ServiceCard) : String :=
  (pySplitEq (card.chartHref.getD "")).getD 2 ""

/-- The service id derived from the first button whose `onclick` matches
the pause/unpause pattern. -/
def servIdOf (card : ServiceCard) : Option Nat :=
  card.buttonOnclicks.findSome? serviceIdFromOnclick

/-- One iteration of the card loop in `async_get_services`: `none` is the
`continue` / failed final guard, `some` is the appended service. -/
def parseServiceCard (card : ServiceCard) : Option LauntelService :=
  match card.titleText with
  | none => none
  | some t =>
      let servTitle := pyStrip t
      match card.chartHref with
      | none => none
      | some href =>
          if href = "" then none
          else
            let servUserId : String := (pySplitEq href).getD 2 ""
            let servAvcId : String := card.cardId
            let speedLabel : Option String :=
              card.speedDdTexts.map (fun l => joinSp (l.map pyStrip))
            let changeInProgress : Bool :=
              match card.statusDdText with
              | some txt => strContains txt "Change in progress"
              | none => false
            match card.buttonOnclicks.findSome? serviceIdFromOnclick with
            | none => none
            | some sid =>
                if servTitle ≠ "" ∧ servAvcId ≠ "" ∧ servUserId ≠ "" then
                  some ⟨servTitle, Int.ofNat sid, servAvcId, servUserId,
                        speedLabel, changeInProgress⟩
                else none

/-- The parsing phase of `async_get_services` over the cards of the
`/services` page (the transport part — `raise_for_status` — is modelled
in the coordinator's environment). -/
def async_get_services (cards : List ServiceCard) : List LauntelService :=
  cards.filterMap parseServiceCard

/-- A card lacking one of the four required ingredients: a (non-empty)
title, a derivable service id, a card id (`avcid`) or a user id. -/
def lacksRequiredField (card : ServiceCard) : Prop :=
  servTitleOf card = "" ∨ servIdOf card = none ∨
  card.cardId = "" ∨ servUserIdOf card = ""

instance (card : ServiceCard) : Decidable (lacksRequiredField card) := by
  unfold lacksRequiredField
  infer_instance

/- ### Plan Catalog Parser (`LauntelClient.async_get_plan_options`)

Each `span.list-group-item` is modelled by the values the source's
queries return on it: `dataValue` is the `data-value` attribute after the
list/tuple normalization (`none` when absent), `dataPlancharge` the
`data-plancharge` attribute, `colTexts` the `stripped_strings` of the
first `col-*` div of the item's `div.row` when that layout exists,
`ownTexts` the `stripped_strings` of the whole item and `fullText` its
`get_text()`.  The document also carries, in probe order, the values
found for the current-psid hidden inputs / data attribute, and the value
of the `locid` input (`none` when the input or its `value` attribute is
missing). -/

structure PlanChoice where
  dataValue : Option String
  dataPlancharge : Option String
  colTexts : Option (List String)
  ownTexts : List String
  fullText : String
deriving DecidableEq

/-- Per-plan metadata stored in the `plans_mapping` dict. -/
structure PlanMeta where
  label : String
  price_per_day : Option Rat
  unlimited : Bool
  speed : Option String
  first_col : Option String
deriving DecidableEq

structure CatalogDoc where
  currentPsidRaw : List (Option String)
  choices : List PlanChoice
  locidValue : Option String
deriving DecidableEq

/-- The snapshot `async_get_plan_options` returns as a tuple. -/
structure CatalogSnapshot where
  options : List String
  label_to_psid : List (String × Int)
  current_label : Option String
  locid : Option String
  plans_mapping : List (Int × PlanMeta)
deriving DecidableEq

/-- The `re.search(r"\((\d+)\s*/\s*(\d+)\)", label)` speed-pair
extraction, producing `"<down>/<up>"`.  The three character classes of
the pattern are pairwise disjoint, so greedy matching without
backtracking is exact. -/
def findSpeedPair (label : String) : Option String :=
  go label.data
where
  tryHere : List Char → Option String
    | '(' :: rest =>
        let d1 := rest.takeWhile Char.isDigit
        if d1 = [] then none
        else
          let r1 := (rest.dropWhile Char.isDigit).dropWhile Char.isWhitespace
          match r1 with
          | '/' :: r2 =>
              let r3 := r2.dropWhile Char.isWhitespace
              let d2 := r3.takeWhile Char.isDigit
              if d2 = [] then none
              else
                match r3.dropWhile Char.isDigit with
                | ')' :: _ => some (String.mk d1 ++ "/" ++ String.mk d2)
                | _ => none
          | _ => none
    | _ => none
  go : List Char → Option String
    | [] => none
    | c :: t =>
        match tryHere (c :: t) with
        | some s => some s
        | none => go t

/-- Accumulator of the choice loop: the three collections built up. -/
structure CatState where
  options : List String
  label_to_psid : List (String × Int)
  plans_mapping : List (Int × PlanMeta)
deriving DecidableEq

/-- The label of a choice: the first structural column's text when a
column layout exists, else the item's own text; components stripped,
space-joined, then whitespace-collapsed. -/
def choiceLabel (c : PlanChoice) : String :=
  collapseWs (joinSp ((c.colTexts.getD c.ownTexts).map pyStrip))

/-- The metadata entry built for one choice. -/
def choiceMeta (c : PlanChoice) : PlanMeta :=
  { label := choiceLabel c,
    price_per_day :=
      match c.dataPlancharge with
      | none => none
      | some pc => parseDecimal pc,
    unlimited := strContains c.fullText "Unlimited",
    speed := findSpeedPair (choiceLabel c),
    first_col := c.colTexts.map (fun l => joinSp (l.map pyStrip)) }

/-- The loop body for one choice with parsed psid: record the label (when
non-empty) in `options` and `label_to_psid`, then store the metadata
under the psid. -/
def stepChoice (c : PlanChoice) (psid : Int) (st : CatState) : CatState :=
  let label := choiceLabel c
  let st1 : CatState :=
    if label ≠ "" then
      { st with
        label_to_psid := dinsert st.label_to_psid label psid,
        options := st.options ++ [label] }
    else st
  { st1 with plans_mapping := dinsert st1.plans_mapping psid (choiceMeta c) }

/-- The choice loop of `async_get_plan_options`.  A missing or empty
`data-value` is `continue`; a non-integer `data-value` makes the
unguarded `int(psid_str)` raise, aborting the whole parse (`none`).
`float(plancharge)` failures are caught and become `none` prices. -/
def processChoices : List PlanChoice → CatState → Option CatState
  | [], st => some st
  | c :: rest, st =>
      match c.dataValue with
      | none => processChoices rest st
      | some psidStr =>
          if psidStr = "" then processChoices rest st
          else
            match parseInt psidStr with
            | none => none
            | some psid => processChoices rest (stepChoice c psid st)

/-- The current-psid probe loop: first probe whose value is truthy and
integer-parseable wins (a `ValueError` is caught and moves to the next
probe). -/
def currentPsidOf (doc : CatalogDoc) : Option Int :=
  doc.currentPsidRaw.findSome?
    (fun v => v.bind (fun s => if s = "" then none else parseInt s))

/-- `async_get_plan_options` over a fetched catalog page. -/
def async_get_plan_options (doc : CatalogDoc) : Option CatalogSnapshot :=
  match processChoices doc.choices ⟨[], [], []⟩ with
  | none => none
  | some st =>
      let currentLabel : Option String :=
        match currentPsidOf doc with
        | none => none
        | some p =>
            (st.label_to_psid.find? (fun kv => decide (kv.2 = p))).map Prod.fst
      some ⟨st.options, st.label_to_psid, currentLabel, doc.locidValue,
            st.plans_mapping⟩

/-- The psids of the items the loop actually parses (truthy `data-value`
that parses as an integer), in order. -/
def parsedPsids (choices : List PlanChoice) : List Int :=
  choices.filterMap
    (fun c => c.dataValue.bind (fun s => if s = "" then none else parseInt s))

/- ### Balance Parser (`LauntelClient.async_get_balance`)

Tier 1 reads the text of the first `span` inside the `dd` following the
"Current Balance" `dt`; tier 2 the same inside `div.card-balance`; tier 3
regex-searches the whole page text.  The page is modelled by those three
query results.  The amount pattern is
`([\+\-]?)\$?([0-9,]+\.?[0-9]*)`; its character classes are disjoint from
the optional prefixes, so a greedy left-to-right scan is exact. -/

structure BalancePage where
  currentBalanceSpanText : Option String
  balanceCardSpanText : Option String
  pageText : String
deriving DecidableEq

/-- Match of the sign/amount pattern starting exactly here: returns the
sign group ('-' negates) and the raw second group. -/
def amountAt (cs : List Char) : Option (Bool × String) :=
  let (neg, cs1) :=
    match cs with
    | '+' :: t => (false, t)
    | '-' :: t => (true, t)
    | t => (false, t)
  let cs2 :=
    match cs1 with
    | '$' :: t => t
    | _ => cs1
  let amtClass : Char → Bool := fun c => c.isDigit || c = ','
  let ds := cs2.takeWhile amtClass
  if ds = [] then none
  else
    let cs3 := cs2.dropWhile amtClass
    match cs3 with
    | '.' :: t => some (neg, String.mk (ds ++ ['.'] ++ t.takeWhile Char.isDigit))
    | _ => some (neg, String.mk ds)

/-- `re.search` of the sign/amount pattern: leftmost match. -/
def searchAmount : List Char → Option (Bool × String)
  | [] => none
  | c :: t =>
      match amountAt (c :: t) with
      | some m => some m
      | none => searchAmount t

/-- The shared tier-1/tier-2 body: match the sign/amount pattern in the
span text, strip commas from the amount group, `float` it, negate on a
'-' sign; a parse failure is caught and yields `none`. -/
def extractBalance (txt : String) : Option Rat :=
  match searchAmount txt.data with
  | none => none
  | some (neg, g2) =>
      match parseDecimal (String.mk (g2.data.filter (fun c => c ≠ ','))) with
      | none => none
      | some v => some (if neg then -v else v)

/-- Case-insensitive literal match, returning the rest of the input. -/
def stripCI : List Char → List Char → Option (List Char)
  | [], cs => some cs
  | _ :: _, [] => none
  | p :: ps, c :: cs => if c.toLower = p then stripCI ps cs else none

/-- Tier-3 pattern `Current\s+Balance[:\s]*(sign)(amount)` starting
exactly here (case-insensitive). -/
def currentBalanceAt (cs : List Char) : Option (Bool × String) :=
  match stripCI "current".data cs with
  | none => none
  | some cs1 =>
      let ws := cs1.takeWhile Char.isWhitespace
      if ws = [] then none
      else
        match stripCI "balance".data (cs1.dropWhile Char.isWhitespace) with
        | none => none
        | some cs2 =>
            amountAt (cs2.dropWhile (fun c => c = ':' || c.isWhitespace))

/-- `re.search` of the tier-3 pattern over the page text. -/
def searchCurrentBalance : List Char → Option (Bool × String)
  | [] => none
  | c :: t =>
      match currentBalanceAt (c :: t) with
      | some m => some m
      | none => searchCurrentBalance t

/-- `async_get_balance`: the three-tier fallback; exhausting all tiers
yields `none`, never an error. -/
def async_get_balance (page : BalancePage) : Option Rat :=
  match page.currentBalanceSpanText.bind extractBalance with
  | some v => some v
  | none =>
      match page.balanceCardSpanText.bind extractBalance with
      | some v => some v
      | none =>
          match searchCurrentBalance page.pageText.data with
          | none => none
          | some (neg, g2) =>
              match parseDecimal
                  (String.mk (g2.data.filter (fun c => c ≠ ','))) with
              | none => none
              | some v => some (if neg then -v else v)

/- ### Adaptive Polling Coordinator (`_async_update` in `__init__.py`)

A cycle's environment is the outcome of the two fetches the cycle may
perform: the service-directory fetch (every exception of which — auth
failure, transport error — lands in the outer `except`) and the catalog
fetch (whose exceptions land in the inner `except`; it is consulted only
on the not-change-in-progress path).  The published data dict is modelled
literally as an insertion-ordered association list over a value sum, so
that presence and absence of keys is faithful, and the function returns a
result sum to make visible that the body catches every exception and
always returns normally. -/

inductive Fetch (α : Type) : Type
  | ok (a : α)
  | error (e : ApiError)
deriving DecidableEq

structure UpdateEnv where
  directory : Fetch (List LauntelService)
  catalog : Fetch CatalogSnapshot
deriving DecidableEq

/-- The config-entry inputs the coordinator closure uses.  `entryTitle`
models `entry.title`, with `""` for an unset/falsy title. -/
structure CoordinatorConfig where
  entryTitle : String
  service_id : Int
  avcid : String
  user_id : String
deriving DecidableEq

/-- The placeholder service synthesized when the target service is
missing (or the fetch failed) and no previous snapshot exists:
`title = entry.title or f"Launtel {service_id}"`. -/
def placeholderService (cfg : CoordinatorConfig) : LauntelService :=
  { title := if cfg.entryTitle = "" then "Launtel " ++ toString cfg.service_id
             else cfg.entryTitle,
    service_id := cfg.service_id,
    avcid := cfg.avcid,
    user_id := cfg.user_id,
    speed_label := none,
    change_in_progress := true }

/-- Values stored in the published data dict. -/
inductive SnapVal : Type
  | serviceVal (s : LauntelService)
  | strList (l : List String)
  | labelMap (m : List (String × Int))
  | optStr (s : Option String)
  | strVal (s : String)
  | intVal (n : Int)
  | plansVal (m : List (Int × PlanMeta))
  | boolVal (b : Bool)
deriving DecidableEq

/-- The coordinator's published snapshot: a Python dict. -/
abbrev PollData := List (String × SnapVal)

/-- Python `a or b` on optional strings: `a` unless it is `None` or
empty. -/
def pyOrStr (a b : Option String) : Option String :=
  match a with
  | some s => if s = "" then b else some s
  | none => b

/-- The literal `data` dict packaged at the end of `_async_update`, in
the source's key order. -/
def packageData (cfg : CoordinatorConfig) (svc : LauntelService)
    (options : List String) (ltp : List (String × Int))
    (currentLabel locid : Option String) (plans : List (Int × PlanMeta))
    (change : Bool) : PollData :=
  [("service", SnapVal.serviceVal svc),
   ("options", SnapVal.strList options),
   ("label_to_psid", SnapVal.labelMap ltp),
   ("current_label", SnapVal.optStr currentLabel),
   ("locid", SnapVal.optStr locid),
   ("user_id", SnapVal.strVal cfg.user_id),
   ("service_id", SnapVal.intVal cfg.service_id),
   ("avcid", SnapVal.strVal cfg.avcid),
   ("plans_mapping", SnapVal.plansVal plans),
   ("change_in_progress", SnapVal.boolVal change),
   ("service_speed_label", SnapVal.optStr svc.speed_label)]

/-- One polling cycle (`_async_update`): takes the remembered
`previous_service` and the cycle's fetch outcomes, returns the published
dict and the new `previous_service` (always `svc`, which is never `None`
at packaging time).  The result sum is `.ok` on every path: the body's
outer `except Exception` absorbs every fetch error, including
authentication errors on the very first cycle. -/
def coordinatorUpdate (cfg : CoordinatorConfig) (prev : Option LauntelService)
    (env : UpdateEnv) : Fetch (PollData × LauntelService) :=
  match env.directory with
  | Fetch.error _ =>
      -- outer `except`: fall back, mark changing; `current_label` keeps
      -- its default `None` here
      let svc := prev.getD (placeholderService cfg)
      Fetch.ok (packageData cfg svc [] [] none none [] true, svc)
  | Fetch.ok services =>
      match services.find? (fun s => decide (s.service_id = cfg.service_id)) with
      | none =>
          -- service missing: previous or placeholder, treated as changing;
          -- the change branch displays `svc.speed_label`
          let svc := prev.getD (placeholderService cfg)
          Fetch.ok (packageData cfg svc [] [] svc.speed_label none [] true, svc)
      | some svc =>
          if svc.change_in_progress then
            Fetch.ok (packageData cfg svc [] [] svc.speed_label none [] true, svc)
          else
            match env.catalog with
            | Fetch.error _ =>
                -- inner `except`: treat as changing, display the stored
                -- speed label, catalog fields keep their defaults
                Fetch.ok (packageData cfg svc [] [] svc.speed_label none [] true,
                  svc)
            | Fetch.ok snap =>
                if (snap.options = [] ∧ snap.current_label = none) ∨
                    snap.locid = none then
                  Fetch.ok (packageData cfg svc [] []
                    (pyOrStr snap.current_label svc.speed_label) none [] true,
                    svc)
                else
                  Fetch.ok (packageData cfg svc snap.options snap.label_to_psid
                    snap.current_label snap.locid snap.plans_mapping false, svc)

/-- `LauntelBalanceSensor.native_value`:
`self.coordinator.data.get("account_balance")`. -/
def balanceSensorNativeValue (data : PollData) : Option SnapVal :=
  dget data "account_balance"

/- ### Properties -/

/-- C3: `ensureAuthenticated` is idempotent.  From an unauthenticated
session, two sequential `_ensure_login` calls issue exactly one login
request when the first login is accepted (the second call sees
`_logged_in` and performs no login); and `n ≥ 1` concurrent callers,
serialized by the login lock in the worst case where all of them reach
`async_login`, likewise issue exactly one login request in total. -/
theorem c3_ensure_login_idempotent (r1 : LoginResponse)
    (h1 : loginRejected r1 = false) (r2 : LoginResponse) (n : Nat)
    (hn : 1 ≤ n) :
    ((ensure_login (ensure_login initSession r1).1 r2).1).loginRequests = 1 ∧
    (serializedLogins r1 n initSession).loginRequests = 1 := by
  have hstep : (async_login initSession r1).1 = ⟨true, 1⟩ := by
    simp [async_login, initSession, h1]
  have hstep' : (ensure_login initSession r1).1 = ⟨true, 1⟩ := hstep
  have hfix : ∀ k, serializedLogins r1 k ⟨true, 1⟩ = ⟨true, 1⟩ := by
    intro k
    induction k with
    | zero => simp [serializedLogins]
    | succ k ih =>
        have : (async_login ⟨true, 1⟩ r1).1 = ⟨true, 1⟩ := by
          simp [async_login]
        rw [serializedLogins, this, ih]
  constructor
  · rw [hstep']
    simp [ensure_login]
  · cases n with
    | zero => omega
    | succ m =>
        rw [serializedLogins, hstep, hfix m]

/-- C3 witness: concrete accepted login response, two sequential calls
and three serialized callers. -/
theorem c3_witness :
    ((ensure_login (ensure_login initSession ⟨200, "<html>home</html>"⟩).1
        ⟨200, "<html>home</html>"⟩).1).loginRequests = 1 ∧
    (serializedLogins ⟨200, "<html>home</html>"⟩ 3 initSession).loginRequests
      = 1 := by
  exact c3_ensure_login_idempotent ⟨200, "<html>home</html>"⟩ (by decide)
    ⟨200, "<html>home</html>"⟩ 3 (by decide)

/-- C4: for a login attempt from an unauthenticated session, an HTTP
error status (>= 400) or a body still containing the username input
field raises `AuthenticationError` and leaves `_logged_in` unchanged;
otherwise the session becomes authenticated. -/
theorem c4_login_outcome (st : SessionState) (hst : st.logged_in = false)
    (r : LoginResponse) :
    ((400 ≤ r.status ∨ strContains r.body "name=\"username\"" = true) →
      (async_login st r).2 = OpResult.error ApiError.authenticationError ∧
      (async_login st r).1.logged_in = st.logged_in) ∧
    (¬ (400 ≤ r.status ∨ strContains r.body "name=\"username\"" = true) →
      (async_login st r).2 = OpResult.ok ∧
      (async_login st r).1.logged_in = true) := by
  have hiff : loginRejected r = true ↔
      (400 ≤ r.status ∨ strContains r.body "name=\"username\"" = true) := by
    simp [loginRejected]
  constructor
  · intro h
    have hr : loginRejected r = true := hiff.mpr h
    simp [async_login, hst, hr]
  · intro h
    have hr : loginRejected r = false := by
      cases hh : loginRejected r
      · rfl
      · exact absurd (hiff.mp hh) h
    simp [async_login, hst, hr]

/-- C4 witness: a 500 response raises and leaves the flag down; a clean
200 response authenticates. -/
theorem c4_witness :
    (async_login initSession ⟨500, "<html></html>"⟩).2
      = OpResult.error ApiError.authenticationError ∧
    (async_login initSession ⟨500, "<html></html>"⟩).1.logged_in = false ∧
    (async_login initSession ⟨200, "<html>home</html>"⟩).1.logged_in = true := by
  refine ⟨((c4_login_outcome initSession rfl ⟨500, "<html></html>"⟩).1
      (by decide)).1,
    ((c4_login_outcome initSession rfl ⟨500, "<html></html>"⟩).1
      (by decide)).2,
    ((c4_login_outcome initSession rfl ⟨200, "<html>home</html>"⟩).2
      (by decide)).2⟩

/-- C6 counterexample: the claim says every non-2xx GET response aborts
the plan change, but `raise_for_status` only raises for statuses >= 400;
a 304 GET response (non-2xx) is not treated as fatal — the POST is still
issued and the operation reports success. -/
theorem c6_counterexample :
    async_change_plan 304 200 = ⟨true, true, OpResult.ok⟩ := by decide

/-- C6 amended: with "non-2xx" read as "HTTP error status (>= 400)" — an
error-status GET raises `PlanChangeError` and the POST is never issued;
the POST is issued only when the GET status is below 400; and an
error-status POST after a successful GET also raises `PlanChangeError`. -/
theorem c6_get_gates_post (g p : Nat) :
    (400 ≤ g →
      async_change_plan g p =
        ⟨true, false, OpResult.error (ApiError.planChangeError g)⟩) ∧
    ((async_change_plan g p).postIssued = true → g < 400) ∧
    (g < 400 → 400 ≤ p →
      async_change_plan g p =
        ⟨true, true, OpResult.error (ApiError.planChangeError p)⟩) := by
  refine ⟨?_, ?_, ?_⟩
  · intro h
    simp [async_change_plan, h]
  · intro h
    by_cases hg : 400 ≤ g
    · simp [async_change_plan, hg] at h
    · omega
  · intro h hp
    have hg : ¬ 400 ≤ g := by omega
    simp [async_change_plan, hg, hp]

/-- C6 witness: a 500 GET aborts before the POST; a 500 POST after a 200
GET raises. -/
theorem c6_witness :
    async_change_plan 500 200 =
      ⟨true, false, OpResult.error (ApiError.planChangeError 500)⟩ ∧
    async_change_plan 200 500 =
      ⟨true, true, OpResult.error (ApiError.planChangeError 500)⟩ := by
  exact ⟨(c6_get_gates_post 500 200).1 (by decide),
    (c6_get_gates_post 200 500).2.2 (by decide) (by decide)⟩

/-- C5: a service card lacking a (non-empty) title, a derivable service
id, a card id (`avcid`) or a user id (third `=`-segment of the chart
link) is omitted from the listing without aborting it, and every
well-formed card of the document is still returned. -/
theorem c5_malformed_card_omitted (cards : List ServiceCard)
    (card : ServiceCard) (_hmem : card ∈ cards)
    (h : lacksRequiredField card) :
    parseServiceCard card = none ∧
    ∀ d ∈ cards, ∀ s, parseServiceCard d = some s →
      s ∈ async_get_services cards := by
  constructor
  · cases htt : card.titleText with
    | none => simp [parseServiceCard, htt]
    | some t =>
        cases hch : card.chartHref with
        | none => simp [parseServiceCard, htt, hch]
        | some href =>
            by_cases hhe : href = ""
            · simp [parseServiceCard, htt, hch, hhe]
            · cases hsv : card.buttonOnclicks.findSome? serviceIdFromOnclick with
              | none => simp [parseServiceCard, htt, hch, hhe, hsv]
              | some sid =>
                  have hguard : ¬ (pyStrip t ≠ "" ∧ card.cardId ≠ "" ∧
                      (pySplitEq href).getD 2 "" ≠ "") := by
                    rcases h with h | h | h | h
                    · unfold servTitleOf at h
                      rw [htt] at h
                      simp only [Option.getD_some] at h
                      tauto
                    · unfold servIdOf at h
                      rw [hsv] at h
                      exact absurd h (by simp)
                    · tauto
                    · unfold servUserIdOf at h
                      rw [hch] at h
                      simp only [Option.getD_some] at h
                      tauto
                  simp only [parseServiceCard, htt, hch, hhe, hsv, if_neg hhe]
                  rw [if_neg hguard]
                  simp
  · intro d hd s hs
    exact List.mem_filterMap.mpr ⟨d, hd, hs⟩

/-- C5 witness: the first card has an empty card id and is dropped; the
second is well-formed and is returned. -/
theorem c5_witness :
    parseServiceCard
      ⟨some "My Service", some "a=b=u123", "", ["pauseService(42)"],
        none, none⟩ = none ∧
    (⟨"Home", 7, "AVC1", "u9", some "Fibre 250/100 Mbps", false⟩ :
        LauntelService) ∈
      async_get_services
        [⟨some "My Service", some "a=b=u123", "", ["pauseService(42)"],
            none, none⟩,
         ⟨some " Home ", some "t=x=u9", "AVC1", ["unpauseService(7);"],
            some ["Fibre", "250/100 Mbps"], some "Active"⟩] := by
  have h := c5_malformed_card_omitted
    [⟨some "My Service", some "a=b=u123", "", ["pauseService(42)"],
        none, none⟩,
     ⟨some " Home ", some "t=x=u9", "AVC1", ["unpauseService(7);"],
        some ["Fibre", "250/100 Mbps"], some "Active"⟩]
    ⟨some "My Service", some "a=b=u123", "", ["pauseService(42)"],
        none, none⟩
    (by decide) (by decide)
  exact ⟨h.1, h.2
    ⟨some " Home ", some "t=x=u9", "AVC1", ["unpauseService(7);"],
        some ["Fibre", "250/100 Mbps"], some "Active"⟩
    (by decide) _ (by decide)⟩

/-- Every cycle returns normally with a dict of the packaged shape, and
every change-in-progress snapshot carries an empty catalog (shared shape
lemma for the coordinator properties). -/
theorem coordinatorUpdate_shape (cfg : CoordinatorConfig)
    (prev : Option LauntelService) (env : UpdateEnv) :
    ∃ svc options ltp clabel locid plans change,
      coordinatorUpdate cfg prev env =
        Fetch.ok (packageData cfg svc options ltp clabel locid plans change,
          svc) ∧
      (change = true →
        options = [] ∧ ltp = [] ∧ locid = none ∧ plans = []) := by
  obtain ⟨dir, cat⟩ := env
  cases dir with
  | error e =>
      exact ⟨prev.getD (placeholderService cfg), [], [], none, none, [], true,
        rfl, fun _ => ⟨rfl, rfl, rfl, rfl⟩⟩
  | ok services =>
      cases hfind : services.find?
          (fun s => decide (s.service_id = cfg.service_id)) with
      | none =>
          refine ⟨prev.getD (placeholderService cfg), [], [],
            (prev.getD (placeholderService cfg)).speed_label, none, [], true,
            ?_, fun _ => ⟨rfl, rfl, rfl, rfl⟩⟩
          simp only [coordinatorUpdate, hfind]
      | some svc =>
          cases hcip : svc.change_in_progress with
          | true =>
              refine ⟨svc, [], [], svc.speed_label, none, [], true, ?_,
                fun _ => ⟨rfl, rfl, rfl, rfl⟩⟩
              simp only [coordinatorUpdate, hfind, hcip, if_true]
          | false =>
              cases cat with
              | error e =>
                  refine ⟨svc, [], [], svc.speed_label, none, [], true, ?_,
                    fun _ => ⟨rfl, rfl, rfl, rfl⟩⟩
                  simp only [coordinatorUpdate, hfind, hcip,
                    Bool.false_eq_true, if_false]
              | ok snap =>
                  by_cases htrig :
                      (snap.options = [] ∧ snap.current_label = none) ∨
                        snap.locid = none
                  · refine ⟨svc, [], [],
                      pyOrStr snap.current_label svc.speed_label, none, [],
                      true, ?_, fun _ => ⟨rfl, rfl, rfl, rfl⟩⟩
                    simp only [coordinatorUpdate, hfind, hcip,
                      Bool.false_eq_true, if_false]
                    rw [if_pos htrig]
                  · refine ⟨svc, snap.options, snap.label_to_psid,
                      snap.current_label, snap.locid, snap.plans_mapping,
                      false, ?_, fun hh => by cases hh⟩
                    simp only [coordinatorUpdate, hfind, hcip,
                      Bool.false_eq_true, if_false]
                    rw [if_neg htrig]

/-- C1: the claim says every published snapshot carries the account
balance from the Balance Parser, but `_async_update` never calls
`async_get_balance` and packages no `account_balance` key, so every
published dict lacks the key and the balance sensor's `native_value`
(`data.get("account_balance")`) is always `None`.  The code contradicts
its own `LauntelBalanceSensor`, which reads exactly that key. -/
theorem c1_snapshot_never_has_balance (cfg : CoordinatorConfig)
    (prev : Option LauntelService) (env : UpdateEnv) (d : PollData)
    (svc : LauntelService)
    (h : coordinatorUpdate cfg prev env = Fetch.ok (d, svc)) :
    dget d "account_balance" = none ∧ balanceSensorNativeValue d = none := by
  obtain ⟨svc', options, ltp, clabel, locid, plans, change, hu, -⟩ :=
    coordinatorUpdate_shape cfg prev env
  rw [hu] at h
  injection h with h
  injection h with h1 h2
  subst h1
  exact ⟨rfl, rfl⟩

/-- C1 witness: a fully successful first cycle for a concrete
configuration still publishes no account balance. -/
theorem c1_witness :
    ∃ d : PollData, ∃ svc : LauntelService,
      coordinatorUpdate ⟨"Home", 5, "AVC1", "u1"⟩ none
        ⟨Fetch.ok [⟨"Home", 5, "AVC1", "u1", some "Slow 100", false⟩],
         Fetch.ok ⟨["A"], [("A", 1)], some "A", some "L7",
           [(1, ⟨"A", none, false, none, none⟩)]⟩⟩ = Fetch.ok (d, svc) ∧
      dget d "account_balance" = none ∧
      balanceSensorNativeValue d = none := by
  refine ⟨_, _, rfl, ?_⟩
  exact c1_snapshot_never_has_balance ⟨"Home", 5, "AVC1", "u1"⟩ none
    ⟨Fetch.ok [⟨"Home", 5, "AVC1", "u1", some "Slow 100", false⟩],
     Fetch.ok ⟨["A"], [("A", 1)], some "A", some "L7",
       [(1, ⟨"A", none, false, none, none⟩)]⟩⟩ _ _ rfl

/-- C7: directory fetch succeeds, target service absent, no previous
snapshot — the cycle returns normally and publishes the placeholder
service (title falling back to the configured display name, with the
code's further fallback to "Launtel <id>" when that name is empty),
`change_in_progress = true`, and an empty catalog: no options, empty
label-to-psid map, no location id (and an empty plans mapping). -/
theorem c7_missing_service_placeholder (cfg : CoordinatorConfig)
    (env : UpdateEnv) (services : List LauntelService)
    (hdir : env.directory = Fetch.ok services)
    (habs : ∀ s ∈ services, s.service_id ≠ cfg.service_id) :
    coordinatorUpdate cfg none env =
      Fetch.ok (packageData cfg (placeholderService cfg) [] [] none none []
        true, placeholderService cfg) ∧
    (placeholderService cfg).change_in_progress = true ∧
    (placeholderService cfg).title =
      (if cfg.entryTitle = "" then "Launtel " ++ toString cfg.service_id
       else cfg.entryTitle) := by
  obtain ⟨dir, cat⟩ := env
  simp only at hdir
  subst hdir
  have hfind : services.find?
      (fun s => decide (s.service_id = cfg.service_id)) = none := by
    rw [List.find?_eq_none]
    intro s hs
    simpa using habs s hs
  refine ⟨?_, rfl, rfl⟩
  simp only [coordinatorUpdate, hfind]
  rfl

/-- C7 witness: a directory listing another service only, no previous
snapshot. -/
theorem c7_witness :
    coordinatorUpdate ⟨"My NBN", 5, "AVC5", "u5"⟩ none
      ⟨Fetch.ok [⟨"Other", 9, "AVC9", "u9", none, false⟩],
        Fetch.error ApiError.authenticationError⟩ =
      Fetch.ok (packageData ⟨"My NBN", 5, "AVC5", "u5"⟩
        (placeholderService ⟨"My NBN", 5, "AVC5", "u5"⟩) [] [] none none []
        true, placeholderService ⟨"My NBN", 5, "AVC5", "u5"⟩) ∧
    (placeholderService ⟨"My NBN", 5, "AVC5", "u5"⟩).title = "My NBN" := by
  refine ⟨(c7_missing_service_placeholder ⟨"My NBN", 5, "AVC5", "u5"⟩
    ⟨Fetch.ok [⟨"Other", 9, "AVC9", "u9", none, false⟩],
      Fetch.error ApiError.authenticationError⟩
    [⟨"Other", 9, "AVC9", "u9", none, false⟩] rfl (by decide)).1, by decide⟩

/-- C9 counterexample: the claim says the very first setup-time fetch
does not absorb an `AuthenticationError`, but the update body's outer
`except Exception` absorbs every error on every cycle: with no previous
snapshot and the directory fetch failing with an authentication error,
the update still returns normally with a placeholder snapshot, so
nothing propagates to `async_config_entry_first_refresh`. -/
theorem c9_counterexample :
    coordinatorUpdate ⟨"Home", 5, "AVC1", "u1"⟩ none
      ⟨Fetch.error ApiError.authenticationError,
        Fetch.error ApiError.authenticationError⟩ =
      Fetch.ok (packageData ⟨"Home", 5, "AVC1", "u1"⟩
        (placeholderService ⟨"Home", 5, "AVC1", "u1"⟩) [] [] none none []
        true, placeholderService ⟨"Home", 5, "AVC1", "u1"⟩) := by decide

/-- C9 amended: the coordinator absorbs every fetch error — including
`AuthenticationError` on the very first cycle — on every cycle: the
update always returns normally, and when the directory fetch fails with
no previous snapshot it publishes the placeholder snapshot. -/
theorem c9_always_absorbs (cfg : CoordinatorConfig)
    (prev : Option LauntelService) (env : UpdateEnv) :
    (∃ d svc, coordinatorUpdate cfg prev env = Fetch.ok (d, svc)) ∧
    (∀ e, env.directory = Fetch.error e → prev = none →
      coordinatorUpdate cfg prev env =
        Fetch.ok (packageData cfg (placeholderService cfg) [] [] none none []
          true, placeholderService cfg)) := by
  constructor
  · obtain ⟨svc, options, ltp, clabel, locid, plans, change, hu, -⟩ :=
      coordinatorUpdate_shape cfg prev env
    exact ⟨_, _, hu⟩
  · intro e hdir hprev
    obtain ⟨dir, cat⟩ := env
    simp only at hdir
    subst hdir
    subst hprev
    rfl

/-- C9 witness for the amended claim: first cycle, auth failure on the
directory fetch. -/
theorem c9_witness :
    (∃ d svc, coordinatorUpdate ⟨"Home", 5, "AVC1", "u1"⟩ none
      ⟨Fetch.error ApiError.authenticationError,
        Fetch.error ApiError.authenticationError⟩ = Fetch.ok (d, svc)) ∧
    coordinatorUpdate ⟨"Home", 5, "AVC1", "u1"⟩ none
      ⟨Fetch.error ApiError.authenticationError,
        Fetch.error ApiError.authenticationError⟩ =
      Fetch.ok (packageData ⟨"Home", 5, "AVC1", "u1"⟩
        (placeholderService ⟨"Home", 5, "AVC1", "u1"⟩) [] [] none none []
        true, placeholderService ⟨"Home", 5, "AVC1", "u1"⟩) := by
  have h := c9_always_absorbs ⟨"Home", 5, "AVC1", "u1"⟩ none
    ⟨Fetch.error ApiError.authenticationError,
      Fetch.error ApiError.authenticationError⟩
  exact ⟨h.1, h.2 ApiError.authenticationError rfl rfl⟩

/-- C10: whenever a published snapshot has `change_in_progress = true` —
set by the directory's status, a missing service, an unusable catalog or
a fetch failure — its options list, label-to-psid map and plans mapping
are empty and its location id is null; contrapositively, a non-empty
catalog is only ever published with `change_in_progress = false`. -/
theorem c10_change_implies_empty_catalog (cfg : CoordinatorConfig)
    (prev : Option LauntelService) (env : UpdateEnv) (d : PollData)
    (svc : LauntelService)
    (h : coordinatorUpdate cfg prev env = Fetch.ok (d, svc))
    (hc : dget d "change_in_progress" = some (SnapVal.boolVal true)) :
    dget d "options" = some (SnapVal.strList []) ∧
    dget d "label_to_psid" = some (SnapVal.labelMap []) ∧
    dget d "plans_mapping" = some (SnapVal.plansVal []) ∧
    dget d "locid" = some (SnapVal.optStr none) := by
  obtain ⟨svc', options, ltp, clabel, locid, plans, change, hu, hemp⟩ :=
    coordinatorUpdate_shape cfg prev env
  rw [hu] at h
  injection h with h
  injection h with h1 h2
  subst h1
  have hch : dget (packageData cfg svc' options ltp clabel locid plans change)
      "change_in_progress" = some (SnapVal.boolVal change) := rfl
  rw [hch] at hc
  injection hc with hc
  injection hc with hc
  obtain ⟨rfl, rfl, rfl, rfl⟩ := hemp hc
  exact ⟨rfl, rfl, rfl, rfl⟩

/-- C10 witness: a cycle whose directory reports the service mid-change
publishes `change_in_progress = true` with the catalog fields empty. -/
theorem c10_witness :
    dget (packageData ⟨"Home", 5, "AVC1", "u1"⟩
        ⟨"Home", 5, "AVC1", "u1", some "Slow 100", true⟩ [] []
        (some "Slow 100") none [] true) "options" =
      some (SnapVal.strList []) ∧
    dget (packageData ⟨"Home", 5, "AVC1", "u1"⟩
        ⟨"Home", 5, "AVC1", "u1", some "Slow 100", true⟩ [] []
        (some "Slow 100") none [] true) "locid" =
      some (SnapVal.optStr none) := by
  have h := c10_change_implies_empty_catalog ⟨"Home", 5, "AVC1", "u1"⟩ none
    ⟨Fetch.ok [⟨"Home", 5, "AVC1", "u1", some "Slow 100", true⟩],
      Fetch.ok ⟨["A"], [("A", 1)], some "A", some "L7",
        [(1, ⟨"A", none, false, none, none⟩)]⟩⟩
    (packageData ⟨"Home", 5, "AVC1", "u1"⟩
      ⟨"Home", 5, "AVC1", "u1", some "Slow 100", true⟩ [] []
      (some "Slow 100") none [] true)
    ⟨"Home", 5, "AVC1", "u1", some "Slow 100", true⟩
    (by decide) (by decide)
  exact ⟨h.1, h.2.2.2⟩

/-- A catalog page with one selectable plan and a current psid but no
`locid` input: the parser returns a non-empty catalog with a current
label and `locid = none`. -/
def c8doc : CatalogDoc :=
  ⟨[some "1"],
   [⟨some "1", none, none, ["Fast (250/100)"], "Fast (250/100) Unlimited"⟩],
   none⟩

/-- The snapshot the Plan Catalog Parser produces from `c8doc`. -/
def c8snap : CatalogSnapshot :=
  ⟨["Fast (250/100)"], [("Fast (250/100)", 1)], some "Fast (250/100)", none,
   [(1, ⟨"Fast (250/100)", none, true, some "250/100", none⟩)]⟩

/-- C8 counterexample: when the unusable-catalog trigger fires through
the missing-locid disjunct while the catalog did yield a current label,
the coordinator forces `change_in_progress = true` and clears the
catalog fields as claimed — but it displays the fetched current label
("Fast (250/100)"), not the service's stored speed label ("Slow 100"):
`current_label = current_label or svc.speed_label` prefers the fetched
label. -/
theorem c8_counterexample :
    async_get_plan_options c8doc = some c8snap ∧
    c8snap.options ≠ [] ∧ c8snap.current_label ≠ none ∧ c8snap.locid = none ∧
    coordinatorUpdate ⟨"Home", 5, "AVC1", "u1"⟩
        (some ⟨"Home", 5, "AVC1", "u1", some "Slow 100", false⟩)
        ⟨Fetch.ok [⟨"Home", 5, "AVC1", "u1", some "Slow 100", false⟩],
          Fetch.ok c8snap⟩ =
      Fetch.ok (packageData ⟨"Home", 5, "AVC1", "u1"⟩
        ⟨"Home", 5, "AVC1", "u1", some "Slow 100", false⟩ [] []
        (some "Fast (250/100)") none [] true,
        ⟨"Home", 5, "AVC1", "u1", some "Slow 100", false⟩) ∧
    dget (packageData ⟨"Home", 5, "AVC1", "u1"⟩
        ⟨"Home", 5, "AVC1", "u1", some "Slow 100", false⟩ [] []
        (some "Fast (250/100)") none [] true) "change_in_progress" =
      some (SnapVal.boolVal true) ∧
    dget (packageData ⟨"Home", 5, "AVC1", "u1"⟩
        ⟨"Home", 5, "AVC1", "u1", some "Slow 100", false⟩ [] []
        (some "Fast (250/100)") none [] true) "current_label" =
      some (SnapVal.optStr (some "Fast (250/100)")) ∧
    (⟨"Home", 5, "AVC1", "u1", some "Slow 100", false⟩ :
      LauntelService).speed_label = some "Slow 100" ∧
    some "Fast (250/100)" ≠ some "Slow 100" := by decide

/-- C8 amended: when the target service is present with
`change_in_progress = false` and the fetched catalog is unusable (zero
options and no current label, or no location id), the coordinator forces
`change_in_progress = true` and clears the catalog fields (empty
options, empty label-to-psid map, null locid, empty plans mapping); the
displayed current plan label is the fetched current label when non-null,
and only otherwise falls back to the service's stored speed label. -/
theorem c8_unusable_catalog_clears (cfg : CoordinatorConfig)
    (env : UpdateEnv) (services : List LauntelService)
    (svc : LauntelService) (snap : CatalogSnapshot)
    (prev : Option LauntelService)
    (hdir : env.directory = Fetch.ok services)
    (hfind : services.find?
      (fun s => decide (s.service_id = cfg.service_id)) = some svc)
    (hcip : svc.change_in_progress = false)
    (hcat : env.catalog = Fetch.ok snap)
    (htrig : (snap.options = [] ∧ snap.current_label = none) ∨
      snap.locid = none) :
    coordinatorUpdate cfg prev env =
      Fetch.ok (packageData cfg svc [] []
        (pyOrStr snap.current_label svc.speed_label) none [] true, svc) := by
  obtain ⟨dir, cat⟩ := env
  simp only at hdir hcat
  subst hdir
  subst hcat
  simp only [coordinatorUpdate, hfind, hcip, Bool.false_eq_true, if_false]
  rw [if_pos htrig]

/-- C8 witness: scenario B proper — zero options, no current label, a
locid present; the displayed label falls back to the stored speed
label. -/
theorem c8_witness :
    coordinatorUpdate ⟨"Home", 5, "AVC1", "u1"⟩
        (some ⟨"Home", 5, "AVC1", "u1", some "Slow 100", false⟩)
        ⟨Fetch.ok [⟨"Home", 5, "AVC1", "u1", some "Slow 100", false⟩],
          Fetch.ok ⟨[], [], none, some "L7", []⟩⟩ =
      Fetch.ok (packageData ⟨"Home", 5, "AVC1", "u1"⟩
        ⟨"Home", 5, "AVC1", "u1", some "Slow 100", false⟩ [] []
        (some "Slow 100") none [] true,
        ⟨"Home", 5, "AVC1", "u1", some "Slow 100", false⟩) := by
  have h := c8_unusable_catalog_clears ⟨"Home", 5, "AVC1", "u1"⟩
    ⟨Fetch.ok [⟨"Home", 5, "AVC1", "u1", some "Slow 100", false⟩],
      Fetch.ok ⟨[], [], none, some "L7", []⟩⟩
    [⟨"Home", 5, "AVC1", "u1", some "Slow 100", false⟩]
    ⟨"Home", 5, "AVC1", "u1", some "Slow 100", false⟩
    ⟨[], [], none, some "L7", []⟩
    (some ⟨"Home", 5, "AVC1", "u1", some "Slow 100", false⟩)
    rfl (by decide) rfl rfl (by decide)
  exact h

/-- Loop invariant of the choice loop: the label map has distinct keys,
and every entry points at an already-processed psid whose plans entry
still carries that entry's label. -/
def catInv (st : CatState) (processed : List Int) : Prop :=
  keysNodup st.label_to_psid ∧
  ∀ kv ∈ st.label_to_psid, kv.2 ∈ processed ∧
    ∃ m, dget st.plans_mapping kv.2 = some m ∧ m.label = kv.1

theorem stepChoice_inv (c : PlanChoice) (psid : Int) (st : CatState)
    (processed : List Int) (hinv : catInv st processed)
    (hfresh : psid ∉ processed) :
    catInv (stepChoice c psid st) (processed ++ [psid]) := by
  obtain ⟨hnd, hmem⟩ := hinv
  by_cases hl : choiceLabel c = ""
  · have h1 : (stepChoice c psid st).label_to_psid = st.label_to_psid := by
      simp [stepChoice, hl]
    have h2 : (stepChoice c psid st).plans_mapping =
        dinsert st.plans_mapping psid (choiceMeta c) := by
      simp [stepChoice, hl]
    refine ⟨by rw [h1]; exact hnd, ?_⟩
    rw [h1, h2]
    intro kv hkv
    obtain ⟨hp, m, hm, hlab⟩ := hmem kv hkv
    have hne : kv.2 ≠ psid := fun hh => hfresh (hh ▸ hp)
    exact ⟨List.mem_append_left _ hp, m,
      by rw [dget_dinsert_ne _ _ _ _ hne]; exact hm, hlab⟩
  · have h1 : (stepChoice c psid st).label_to_psid =
        dinsert st.label_to_psid (choiceLabel c) psid := by
      simp [stepChoice, hl]
    have h2 : (stepChoice c psid st).plans_mapping =
        dinsert st.plans_mapping psid (choiceMeta c) := by
      simp [stepChoice, hl]
    refine ⟨by rw [h1]; exact keysNodup_dinsert _ _ _ hnd, ?_⟩
    rw [h1, h2]
    intro kv hkv
    rcases mem_dinsert _ _ _ _ hkv with hkv | hkv
    · subst hkv
      exact ⟨List.mem_append_right _ (List.mem_singleton.mpr rfl),
        choiceMeta c, dget_dinsert_self _ _ _, rfl⟩
    · obtain ⟨hp, m, hm, hlab⟩ := hmem kv hkv
      have hne : kv.2 ≠ psid := fun hh => hfresh (hh ▸ hp)
      exact ⟨List.mem_append_left _ hp, m,
        by rw [dget_dinsert_ne _ _ _ _ hne]; exact hm, hlab⟩

theorem processChoices_inv (cs : List PlanChoice) :
    ∀ (st : CatState) (processed : List Int) (st' : CatState),
      catInv st processed →
      (processed ++ parsedPsids cs).Nodup →
      processChoices cs st = some st' →
      catInv st' (processed ++ parsedPsids cs) := by
  induction cs with
  | nil =>
      intro st processed st' hinv _ h
      simp only [processChoices, Option.some.injEq] at h
      subst h
      simpa [parsedPsids] using hinv
  | cons c rest ih =>
      intro st processed st' hinv hnd h
      simp only [processChoices] at h
      cases hdv : c.dataValue with
      | none =>
          rw [hdv] at h
          have hps : parsedPsids (c :: rest) = parsedPsids rest := by
            simp [parsedPsids, hdv]
          rw [hps] at hnd ⊢
          exact ih st processed st' hinv hnd h
      | some pstr =>
          simp only [hdv] at h
          by_cases hps0 : pstr = ""
          · rw [if_pos hps0] at h
            have hps : parsedPsids (c :: rest) = parsedPsids rest := by
              simp [parsedPsids, hdv, hps0]
            rw [hps] at hnd ⊢
            exact ih st processed st' hinv hnd h
          · rw [if_neg hps0] at h
            cases hpi : parseInt pstr with
            | none =>
                rw [hpi] at h
                exact absurd h (by simp)
            | some psid =>
                rw [hpi] at h
                have hpp : parsedPsids (c :: rest) = psid :: parsedPsids rest := by
                  simp [parsedPsids, hdv, hps0, hpi]
                rw [hpp] at hnd ⊢
                have hfresh : psid ∉ processed := by
                  rw [List.nodup_append] at hnd
                  exact fun hmem => hnd.2.2 hmem (List.mem_cons_self _ _)
                have hnd' : ((processed ++ [psid]) ++ parsedPsids rest).Nodup := by
                  simpa [List.append_assoc] using hnd
                have hres := ih (stepChoice c psid st) (processed ++ [psid])
                  st' (stepChoice_inv c psid st processed hinv hfresh) hnd' h
                simpa [List.append_assoc] using hres

/-- C2 counterexample document: two parsed items share psid 1 under the
different labels "A" and "B". -/
def c2doc : CatalogDoc :=
  ⟨[some "1"],
   [⟨some "1", none, none, ["A"], "A"⟩, ⟨some "1", none, none, ["B"], "B"⟩],
   some "L7"⟩

/-- C2 counterexample: from `c2doc` the parser derives
`current_label = "A"` (first label mapped to the current psid, in
insertion order), but `plans_mapping` keeps only the last item stored
under psid 1, whose label is "B" — so
`plans[labelToPsid[currentLabel]].label` is "B", not "A". -/
theorem c2_counterexample :
    ∃ s, async_get_plan_options c2doc = some s ∧
      ∃ L, s.current_label = some L ∧
        ((dget s.label_to_psid L).bind
          (fun p => (dget s.plans_mapping p).map PlanMeta.label)) ≠ some L := by
  refine ⟨⟨["A", "B"], [("A", 1), ("B", 1)], some "A", some "L7",
    [(1, ⟨"B", none, false, none, none⟩)]⟩, by decide, "A", by decide,
    by decide⟩

/-- C2 amended: the claim holds for every catalog snapshot produced from
items with pairwise-distinct parsed psids (items sharing a label remain
allowed); with a shared psid the counterexample shows it fails.
Whenever `current_label` is non-null, looking it up in `label_to_psid`
and reading that psid's `plans_mapping` entry returns the same label. -/
theorem c2_roundtrip_of_distinct_psids (doc : CatalogDoc)
    (s : CatalogSnapshot) (hnd : (parsedPsids doc.choices).Nodup)
    (hs : async_get_plan_options doc = some s)
    (L : String) (hL : s.current_label = some L) :
    ∃ p, dget s.label_to_psid L = some p ∧
      ∃ m, dget s.plans_mapping p = some m ∧ m.label = L := by
  unfold async_get_plan_options at hs
  cases hpc : processChoices doc.choices ⟨[], [], []⟩ with
  | none =>
      rw [hpc] at hs
      exact absurd hs (by simp)
  | some st =>
      rw [hpc] at hs
      simp only [Option.some.injEq] at hs
      subst hs
      have hinv := processChoices_inv doc.choices ⟨[], [], []⟩ [] st
        ⟨by simp [keysNodup], by simp⟩ (by simpa using hnd) hpc
      simp only at hL
      cases hcp : currentPsidOf doc with
      | none =>
          simp only [hcp] at hL
          exact absurd hL (by simp)
      | some p =>
          simp only [hcp] at hL
          cases hf : st.label_to_psid.find? (fun kv => decide (kv.2 = p)) with
          | none =>
              simp only [hf] at hL
              exact absurd hL (by simp)
          | some kv =>
              simp only [hf, Option.map_some', Option.some.injEq] at hL
              have hkvmem : kv ∈ st.label_to_psid :=
                List.mem_of_find?_eq_some hf
              obtain ⟨hndk, hmem⟩ := hinv
              obtain ⟨-, m, hm, hlab⟩ := hmem kv hkvmem
              refine ⟨kv.2, ?_, m, hm, by rw [hlab, hL]⟩
              rw [← hL]
              have hkv' : (kv.1, kv.2) ∈ st.label_to_psid := by
                simpa using hkvmem
              exact dget_eq_of_mem _ _ _ hndk hkv'

/-- C2 witness for the amended claim: a single-item catalog with a
current psid round-trips its label. -/
theorem c2_witness :
    ∃ p, dget ([("A", (1 : Int))]) "A" = some p ∧
      ∃ m, dget [((1 : Int),
        (⟨"A", none, false, none, none⟩ : PlanMeta))] p = some m ∧
        m.label = "A" := by
  exact c2_roundtrip_of_distinct_psids
    ⟨[some "1"], [⟨some "1", none, none, ["A"], "A"⟩], some "L7"⟩
    ⟨["A"], [("A", 1)], some "A", some "L7",
      [(1, ⟨"A", none, false, none, none⟩)]⟩
    (by decide) (by decide) "A" (by decide)
